import Mathlib

/-!
Verification of the strava-receipt print server (`src/print-server.js`).

The development shallowly embeds the print server's receipt compositor and
binary protocol encoder:

* the ESC/POS raster encoder (the 1-bit packing loop shared by
  `buildLogoRasterString`, `buildGPSRouteRasterString` and the photo loop,
  lines 198-217 / 317-337 / 531-551);
* the raster-image command builder `buildRasterImageCommand` (lines 168-178);
* the QR payload framer `buildEpsonQR` (lines 346-356);
* the numeric formatting of `createAndPrintActivityReceipt` (lines 435-448)
  and the `threeCol` layout helper (lines 111-117);
* the GPS route projection of `buildGPSRouteRasterString` (lines 247-275);
* the paced section transmission `printSection` (lines 651-685) together with
  the `SLOW_PRINT_DELAYS` table (lines 22-27) and the section split (line 611);
* the `POST /print` handler of `startPrintServer` (lines 745-774).

JavaScript numbers are modelled as exact rationals (`ℚ`); byte values as `ℕ`;
binary strings as `List ℕ`.  JavaScript division producing a non-finite value
(NaN or ±Infinity, which only happens in this code when a bounding box has
zero extent) is modelled as `Option ℚ` with `none` for the non-finite case.
-/

namespace PrintServer

/-! ## Raster encoder (print-server.js lines 198-217)

The pixel loop reads the flat RGBA buffer `image.bitmap.data`; `data` is that
buffer as a list of byte values, `data.getD idx 0` modelling `data[idx]`. -/

/-- `const threshold = 0.5` (line 201). -/
def inkThreshold : ℚ := 0.5

/-- `lum = 0.2126 * r + 0.7152 * g + 0.0722 * b` (line 209); `r`, `g`, `b`
are channel values already scaled to `[0,1]`. -/
def luminance (r g b : ℚ) : ℚ := 0.2126 * r + 0.7152 * g + 0.0722 * b

/-- `isBlack = (1 - lum) > threshold && a > 0.1` (line 210). -/
def isBlack (r g b a : ℚ) : Bool :=
  decide (1 - luminance r g b > inkThreshold ∧ a > 0.1)

/-- The four channel bytes of pixel `(x, y)`:
`idx = (y * width + x) * 4`, channels `data[idx] .. data[idx+3]`
(lines 204-208). -/
def pixelChannels (data : List ℕ) (width y x : ℕ) : ℕ × ℕ × ℕ × ℕ :=
  let idx := (y * width + x) * 4
  (data.getD idx 0, data.getD (idx + 1) 0, data.getD (idx + 2) 0,
    data.getD (idx + 3) 0)

/-- The `isBlack` test for pixel `(x, y)` of the buffer, with each channel
divided by 255 as in lines 205-208. -/
def pixelIsBlack (data : List ℕ) (width y x : ℕ) : Bool :=
  let c := pixelChannels data width y x
  isBlack ((c.1 : ℚ) / 255) ((c.2.1 : ℚ) / 255) ((c.2.2.1 : ℚ) / 255)
    ((c.2.2.2 : ℚ) / 255)

/-- `bytesPerRow = Math.ceil(width / 8)` (line 199). -/
def bytesPerRowOf (width : ℕ) : ℕ := (width + 7) / 8

/-- `raster[byteIndex] |= (1 << bit)` (line 214). -/
def setBit (raster : List ℕ) (byteIndex bit : ℕ) : List ℕ :=
  raster.set byteIndex (raster.getD byteIndex 0 ||| (1 <<< bit))

/-- Body of the inner pixel loop (lines 203-216): if the pixel is black, set
bit `7 - (x & 7)` of byte `y * bytesPerRow + (x >> 3)`.  `black` is the
per-row ink test (`black x = pixelIsBlack data width y x` in `buildRaster`). -/
def rasterStep (black : ℕ → Bool) (bytesPerRow y : ℕ) (raster : List ℕ)
    (x : ℕ) : List ℕ :=
  if black x then setBit raster (y * bytesPerRow + x / 8) (7 - x % 8)
  else raster

/-- The inner loop `for (x = 0; x < width; x += 1)` (line 203). -/
def rasterRow (black : ℕ → Bool) (width bytesPerRow y : ℕ)
    (raster : List ℕ) : List ℕ :=
  (List.range width).foldl (rasterStep black bytesPerRow y) raster

/-- The full packing loop (lines 198-217): a zero-initialised
`Uint8Array(bytesPerRow * height)` updated row by row. -/
def buildRaster (width height : ℕ) (data : List ℕ) : List ℕ :=
  (List.range height).foldl
    (fun raster y =>
      rasterRow (fun x => pixelIsBlack data width y x) width
        (bytesPerRowOf width) y raster)
    (List.replicate (bytesPerRowOf width * height) 0)

/-! ## Raster image command (print-server.js lines 168-178) -/

/-- `buildRasterImageCommand`: 8-byte header
`[0x1d, 0x76, 0x30, mode, xL, xH, yL, yH]` followed by the raster payload,
where `xL = bytesPerRow & 0xff`, `xH = (bytesPerRow >> 8) & 0xff`, and
likewise `yL`/`yH` for the height (lines 169-173). -/
def buildRasterImageCommand (bitmapBytesPerRow height : ℕ)
    (rasterData : List ℕ) (mode : ℕ := 0) : List ℕ :=
  let xL := bitmapBytesPerRow % 256
  let xH := (bitmapBytesPerRow / 256) % 256
  let yL := height % 256
  let yH := (height / 256) % 256
  [0x1d, 0x76, 0x30, mode, xL, xH, yL, yH] ++ rasterData

/-! ## QR payload framer (print-server.js lines 346-356)

`payload` is the UTF-8 byte sequence of the URL string
(`Buffer.from(String(data), 'utf8')`, line 347).  The five sub-commands are
the five string fragments `model`, `size`, `ec`, `store`, `print`
(lines 350-354); `ecLevel` is the code of the error-correction character
(the call site passes `'1'`, byte `0x31`). -/

/-- `model = GS ( k \x04 \x00 1 A 2 \x00` (line 350). -/
def qrModelCmd : List ℕ := [0x1d, 0x28, 0x6b, 0x04, 0x00, 0x31, 0x41, 0x32, 0x00]

/-- `size = GS ( k \x03 \x00 1 C <moduleSize>` (line 351). -/
def qrSizeCmd (moduleSize : ℕ) : List ℕ :=
  [0x1d, 0x28, 0x6b, 0x03, 0x00, 0x31, 0x43, moduleSize]

/-- `ec = GS ( k \x03 \x00 1 E <ecLevel>` (line 352). -/
def qrEcCmd (ecLevel : ℕ) : List ℕ :=
  [0x1d, 0x28, 0x6b, 0x03, 0x00, 0x31, 0x45, ecLevel]

/-- `store = GS ( k <pL> <pH> 1 P 0 <payload>` with
`pL = (payload.length + 3) & 0xff`, `pH = ((payload.length + 3) >> 8) & 0xff`
(lines 348-349, 353). -/
def qrStoreCmd (payload : List ℕ) : List ℕ :=
  [0x1d, 0x28, 0x6b, (payload.length + 3) % 256,
    ((payload.length + 3) / 256) % 256, 0x31, 0x50, 0x30] ++ payload

/-- `print = GS ( k \x03 \x00 1 Q 0` (line 354). -/
def qrPrintCmd : List ℕ := [0x1d, 0x28, 0x6b, 0x03, 0x00, 0x31, 0x51, 0x30]

/-- `buildEpsonQR` (lines 346-356): concatenation of the five sub-commands. -/
def buildEpsonQR (payload : List ℕ) (moduleSize : ℕ := 5)
    (ecLevel : ℕ := 0x31) : List ℕ :=
  qrModelCmd ++ qrSizeCmd moduleSize ++ qrEcCmd ecLevel ++
    qrStoreCmd payload ++ qrPrintCmd

/-! ## Numeric formatting (print-server.js lines 142-144, 435-448) -/

/-- `metersToMiles` (lines 142-144): `meters * 0.000621371`. -/
def metersToMiles (meters : ℚ) : ℚ := meters * 0.000621371

/-- JavaScript `Math.round`: nearest integer, halves toward `+∞`. -/
def jsRound (q : ℚ) : ℤ := ⌊q + 1 / 2⌋

/-- JavaScript `String.prototype.padStart(width, c)` with a one-character
pad (default `' '`). -/
def jsPadStart (s : String) (width : ℕ) (c : Char := ' ') : String :=
  String.mk (List.replicate (width - s.length) c) ++ s

/-- JavaScript `String.prototype.padEnd(width)` with the default space pad. -/
def jsPadEnd (s : String) (width : ℕ) : String :=
  s ++ String.mk (List.replicate (width - s.length) ' ')

/-- JavaScript `Number.prototype.toFixed(2)`, modelled for the nonnegative
values produced by the receipt: the decimal string of the integer nearest to
`100 * q` (halves toward `+∞`), with the last two digits after a point. -/
def jsToFixed2 (q : ℚ) : String :=
  let n := (jsRound (q * 100)).toNat
  toString (n / 100) ++ "." ++
    (if n % 100 < 10 then "0" ++ toString (n % 100) else toString (n % 100))

/-- The distance column: `distanceMiles.toFixed(2)` (lines 435, 461). -/
def distanceStr (distanceMiles : ℚ) : String := jsToFixed2 distanceMiles

/-- The pace line (lines 441-444): whole minutes by `Math.floor`, seconds by
`Math.round` of the fractional minutes times 60, zero-padded to two digits. -/
def paceStr (movingTime distanceMiles : ℚ) : String :=
  let paceMinutes := movingTime / 60 / distanceMiles
  let paceMin := ⌊paceMinutes⌋
  let paceSec := jsRound ((paceMinutes - paceMin) * 60)
  toString paceMin ++ ":" ++ jsPadStart (toString paceSec) 2 '0' ++ " min/mi"

/-- The heart-rate value: `Math.round(activity.average_heartrate) + ' bpm'`
(line 447). -/
def heartRateStr (avgHeartrate : ℚ) : String :=
  toString (jsRound avgHeartrate) ++ " bpm"

/-- The elevation value:
`Math.round(activity.total_elevation_gain * 3.28084) + ' ft'` (line 448). -/
def elevationStr (gainMeters : ℚ) : String :=
  toString (jsRound (gainMeters * 3.28084)) ++ " ft"

/-! ## Three-column layout helper (print-server.js lines 111-117) -/

/-- `threeCol` (lines 111-117): `col1.padStart(w1)`, `col2.padEnd(w2)`,
`col3.padStart(w3)`, joined by single spaces; default widths `[8, 24, 12]`. -/
def threeCol (col1 col2 col3 : String) (w1 : ℕ := 8) (w2 : ℕ := 24)
    (w3 : ℕ := 12) : String :=
  jsPadStart col1 w1 ++ " " ++ jsPadEnd col2 w2 ++ " " ++ jsPadStart col3 w3

/-- Modelled from the spec: the layout the spec describes for `threeCol`
("right-pads column 1 to a fixed width, left-pads column 3"), stated for
comparison with `threeCol` above (which is translated from the source).
Column 2 is kept as in the source since the spec does not mention it. -/
def threeColClaimed (col1 col2 col3 : String) (w1 : ℕ := 8) (w2 : ℕ := 24)
    (w3 : ℕ := 12) : String :=
  jsPadEnd col1 w1 ++ " " ++ jsPadEnd col2 w2 ++ " " ++ jsPadStart col3 w3

/-! ## GPS route projection (print-server.js lines 225-281) -/

/-- A `{lat, lng}` route point (the elements of the `route` array). -/
structure RoutePoint where
  lat : ℚ
  lng : ℚ
deriving DecidableEq, Inhabited

/-- `minLat` after the `route.forEach` of lines 247-257: fold of `Math.min`
over all points, seeded with `route[0].lat`. -/
def minLatOf (route : List RoutePoint) : ℚ :=
  route.foldl (fun m p => min m p.lat) (route.headD default).lat

/-- `maxLat` of lines 247-257. -/
def maxLatOf (route : List RoutePoint) : ℚ :=
  route.foldl (fun m p => max m p.lat) (route.headD default).lat

/-- `minLng` of lines 247-257. -/
def minLngOf (route : List RoutePoint) : ℚ :=
  route.foldl (fun m p => min m p.lng) (route.headD default).lng

/-- `maxLng` of lines 247-257. -/
def maxLngOf (route : List RoutePoint) : ℚ :=
  route.foldl (fun m p => max m p.lng) (route.headD default).lng

/-- `padding = Math.max(latRange, lngRange) * 0.1` (lines 259-261). -/
def routePadding (route : List RoutePoint) : ℚ :=
  max (maxLatOf route - minLatOf route) (maxLngOf route - minLngOf route) * 0.1

/-- `minLat -= padding` (line 263). -/
def paddedMinLat (route : List RoutePoint) : ℚ :=
  minLatOf route - routePadding route

/-- `maxLat += padding` (line 264). -/
def paddedMaxLat (route : List RoutePoint) : ℚ :=
  maxLatOf route + routePadding route

/-- `minLng -= padding` (line 265). -/
def paddedMinLng (route : List RoutePoint) : ℚ :=
  minLngOf route - routePadding route

/-- `maxLng += padding` (line 266). -/
def paddedMaxLng (route : List RoutePoint) : ℚ :=
  maxLngOf route + routePadding route

/-- `const svgWidth = 400` (line 268). -/
def svgWidth : ℚ := 400

/-- `const svgHeight = 300` (line 269). -/
def svgHeight : ℚ := 300

/-- JavaScript division as used in the projection: a zero denominator yields
a non-finite number (NaN or ±Infinity), modelled as `none`. -/
def jsDivQ (a b : ℚ) : Option ℚ := if b = 0 then none else some (a / b)

/-- `x = ((point.lng - minLng) / (maxLng - minLng)) * svgWidth` (line 273),
against the padded bounding box. -/
def projX (route : List RoutePoint) (p : RoutePoint) : Option ℚ :=
  (jsDivQ (p.lng - paddedMinLng route)
      (paddedMaxLng route - paddedMinLng route)).map (fun t => t * svgWidth)

/-- `y = svgHeight - ((point.lat - minLat) / (maxLat - minLat)) * svgHeight`
(line 274), against the padded bounding box. -/
def projY (route : List RoutePoint) (p : RoutePoint) : Option ℚ :=
  (jsDivQ (p.lat - paddedMinLat route)
      (paddedMaxLat route - paddedMinLat route)).map
    (fun t => svgHeight - t * svgHeight)

/-- Outcome of `buildGPSRouteRasterString` up to the hand-off to the external
SVG rasterizer (sharp/jimp): `empty` when the function returns `''` before
building the SVG; `svgPath cs` when it reaches line 278 with the projected
coordinates `cs` in the SVG path data. -/
inductive RouteRenderResult
  | empty : RouteRenderResult
  | svgPath (coords : List (Option ℚ × Option ℚ)) : RouteRenderResult
deriving DecidableEq

/-- The in-repository part of `buildGPSRouteRasterString` (lines 225-281):
return `''` when `route.length < 2` (line 226; the null/shape checks of lines
231-239 are excluded by the `RoutePoint` type), otherwise project every point
and hand the SVG to the external rasterizer. -/
def buildGPSRouteResult (route : List RoutePoint) : RouteRenderResult :=
  if route.length < 2 then RouteRenderResult.empty
  else RouteRenderResult.svgPath
    (route.map fun p => (projX route p, projY route p))

/-- The compositor's route-section decision (lines 482-496): an image block
is pushed only when `route.length > 1` and the rendered raster string is
nonempty; otherwise the `'[Route visualization]'` placeholder line is pushed.
`rendered` is the byte string returned by the renderer. -/
def routeSectionUsesImage (route : List RoutePoint) (rendered : List ℕ) : Bool :=
  decide (1 < route.length) && decide (0 < rendered.length)

/-! ## Section split and paced transmission (print-server.js lines 22-27,
97, 611-613, 651-685) -/

/-- `const SECTION_BREAK = '<<<SECTION>>>'` (line 97). -/
def SECTION_BREAK : List Char := "<<<SECTION>>>".data

/-- JavaScript `String.prototype.split` with a nonempty string separator:
scan left to right, cut at each non-overlapping occurrence.  The fuel
argument (seeded with the string length, which bounds the number of steps)
makes the recursion structural. -/
def jsSplitAux (sep : List Char) : ℕ → List Char → List Char → List (List Char)
  | _, [], acc => [acc.reverse]
  | 0, rest, acc => [acc.reverse ++ rest]
  | fuel + 1, c :: rest, acc =>
    if sep.isPrefixOf (c :: rest) then
      acc.reverse :: jsSplitAux sep fuel ((c :: rest).drop sep.length) []
    else
      jsSplitAux sep fuel rest (c :: acc)

/-- `content.split(sep)` for a nonempty separator. -/
def jsSplit (sep : List Char) (s : List Char) : List (List Char) :=
  jsSplitAux sep s.length s []

/-- `fullContent.split(SECTION_BREAK).filter(s => s.length > 0)`
(line 611). -/
def sectionsOf (fullContent : List Char) : List (List Char) :=
  (jsSplit SECTION_BREAK fullContent).filter (fun s => decide (0 < s.length))

/-- `SLOW_PRINT_DELAYS` (lines 22-27) combined with the
`SLOW_PRINT_DELAYS[SLOW_PRINT_MODE] || 0` lookup (line 613). -/
def SLOW_PRINT_DELAYS (mode : String) : ℕ :=
  if mode = "off" then 0
  else if mode = "fast" then 50
  else if mode = "medium" then 150
  else if mode = "slow" then 300
  else 0

/-- One trace of the recursive `printSection` chain (lines 654-685).  A trace
entry `(index, t, err)` records that section `index` was submitted (`lp` was
invoked) at time `t` and that its completion callback reported `err`.
`latency index` is the (arbitrary, oracle-supplied) delay until `exec`'s
callback fires; the callback schedules `printSection(index + 1)` a further
`delay` milliseconds later (line 681) whether or not the submission failed
(the error is only logged, line 672).  The fuel argument (seeded with the
section count) makes the recursion structural; the chain stops as soon as
`index >= numSections` (line 655). -/
def printSectionRun (numSections delay : ℕ) (latency : ℕ → ℕ)
    (errs : ℕ → Bool) : ℕ → ℕ → ℕ → List (ℕ × ℕ × Bool)
  | 0, _, _ => []
  | fuel + 1, index, t =>
    if numSections ≤ index then []
    else (index, t, errs index) ::
      printSectionRun numSections delay latency errs fuel (index + 1)
        (t + latency index + delay)

/-- The paced branch `printSection(0)` (line 685) over the split sections. -/
def pacedRun (sections : List (List Char)) (delay : ℕ) (latency : ℕ → ℕ)
    (errs : ℕ → Bool) : List (ℕ × ℕ × Bool) :=
  printSectionRun sections.length delay latency errs sections.length 0 0

/-! ## POST /print handler (print-server.js lines 358-359, 720-722, 745-774) -/

/-- The `try`/`catch` wrapping the whole body of
`createAndPrintActivityReceipt` (lines 359 and 720-722): any exception thrown
by the composition/printing pipeline is logged and swallowed, so the function
always returns normally.  `pipeline` is the outcome of the wrapped body. -/
def createAndPrintReceiptOutcome (pipeline : Except String Unit) :
    Except String Unit :=
  match pipeline with
  | Except.ok _ => Except.ok ()
  | Except.error _ => Except.ok ()

/-- The `POST /print` handler (lines 752-774) as a function of the outcome of
`JSON.parse` plus destructuring (`parsed`; `Except.ok b` carries the
truthiness `b` of `data.activity`) and of the receipt pipeline body.  The
result is the HTTP status code paired with the `success` flag of the JSON
response. -/
def handlePrintRequest (parsed : Except String Bool)
    (pipeline : Except String Unit) : ℕ × Bool :=
  match parsed with
  | Except.error _ => (500, false)
  | Except.ok hasActivity =>
    if hasActivity = false then (400, false)
    else
      match createAndPrintReceiptOutcome pipeline with
      | Except.ok _ => (200, true)
      | Except.error _ => (500, false)

/-! ## Specification helpers for the raster encoder

`rowMask` and `colMask` are proof artifacts (not source translations): they
give a closed form for the bits accumulated by the packing loop, used to
characterise `buildRaster` byte by byte. -/

/-- The OR of the bit masks contributed to byte `j` by the pixels `xs` of
row `y` (specification helper). -/
def rowMask (black : ℕ → Bool) (bytesPerRow y j : ℕ) (xs : List ℕ) : ℕ :=
  xs.foldr
    (fun x acc =>
      if black x ∧ y * bytesPerRow + x / 8 = j then
        (1 <<< (7 - x % 8)) ||| acc
      else acc)
    0

/-- The OR of the row masks contributed to byte `j` by the rows `ys`
(specification helper). -/
def colMask (black2 : ℕ → ℕ → Bool) (width bytesPerRow j : ℕ)
    (ys : List ℕ) : ℕ :=
  ys.foldr
    (fun y acc => rowMask (black2 y) bytesPerRow y j (List.range width) ||| acc)
    0

end PrintServer

namespace PrintServer

/-! ## Theorems: raster image command (C3) -/

/-- **C3.** For every packed raster, `buildRasterImageCommand` emits exactly
the 8-byte header `GS v 0 mode` followed by `bytesPerRow` and `height` as
little-endian 16-bit values, then the payload bytes verbatim: the emitted
list is the header list followed by `rasterData` unchanged, the two header
pairs recompose to `bytesPerRow` and `height`, the total length is
`8 + rasterData.length`, and dropping the header returns the payload. -/
theorem c3_raster_command (bitmapBytesPerRow height : ℕ) (rasterData : List ℕ)
    (mode : ℕ) (hb : bitmapBytesPerRow < 65536) (hh : height < 65536) :
    buildRasterImageCommand bitmapBytesPerRow height rasterData mode =
      [0x1d, 0x76, 0x30, mode, bitmapBytesPerRow % 256,
        (bitmapBytesPerRow / 256) % 256, height % 256,
        (height / 256) % 256] ++ rasterData ∧
    bitmapBytesPerRow % 256 + 256 * ((bitmapBytesPerRow / 256) % 256) =
      bitmapBytesPerRow ∧
    height % 256 + 256 * ((height / 256) % 256) = height ∧
    (buildRasterImageCommand bitmapBytesPerRow height rasterData mode).length =
      8 + rasterData.length ∧
    (buildRasterImageCommand bitmapBytesPerRow height rasterData mode).drop 8 =
      rasterData := by
  refine ⟨rfl, by omega, by omega, ?_, rfl⟩
  simp only [buildRasterImageCommand, List.length_append, List.length_cons,
    List.length_nil]

/-- Witness for C3 at `bytesPerRow = 300`, `height = 2`,
payload `[1, 2, 3]`. -/
theorem c3_raster_command_witness :
    buildRasterImageCommand 300 2 [1, 2, 3] 0 =
      [0x1d, 0x76, 0x30, 0, 300 % 256, (300 / 256) % 256, 2 % 256,
        (2 / 256) % 256] ++ [1, 2, 3] :=
  (c3_raster_command 300 2 [1, 2, 3] 0 (by decide) (by decide)).1

/-! ## Theorems: QR payload framer (C4) -/

/-- **C4.** For every payload of 1 to 200 bytes, `buildEpsonQR` emits exactly
the five sub-commands select-model, set-module-size, set-error-correction,
store-symbol-data and trigger-print in that order, and the store
sub-command's little-endian 16-bit length prefix recomposes to exactly
`payload.length + 3`. -/
theorem c4_qr_framer (payload : List ℕ) (moduleSize ecLevel : ℕ)
    (h1 : 1 ≤ payload.length) (h2 : payload.length ≤ 200) :
    buildEpsonQR payload moduleSize ecLevel =
      qrModelCmd ++ qrSizeCmd moduleSize ++ qrEcCmd ecLevel ++
        qrStoreCmd payload ++ qrPrintCmd ∧
    qrStoreCmd payload =
      [0x1d, 0x28, 0x6b] ++
        [(payload.length + 3) % 256, ((payload.length + 3) / 256) % 256] ++
        [0x31, 0x50, 0x30] ++ payload ∧
    (payload.length + 3) % 256 +
        256 * (((payload.length + 3) / 256) % 256) =
      payload.length + 3 :=
  ⟨rfl, rfl, by omega⟩

/-- Witness for C4 at the 2-byte payload `[104, 105]`. -/
theorem c4_qr_framer_witness :
    buildEpsonQR [104, 105] 5 0x31 =
      qrModelCmd ++ qrSizeCmd 5 ++ qrEcCmd 0x31 ++ qrStoreCmd [104, 105] ++
        qrPrintCmd :=
  (c4_qr_framer [104, 105] 5 0x31 (by decide) (by decide)).1

/-! ## Theorems: numeric formatting (C5) -/

/-- **C5.** The compositor's numeric formatting: a distance of 1609.34
meters renders as `"1.00"` miles, a moving time of 390 seconds over exactly
one mile renders as pace `"6:30 min/mi"`, an elevation gain of 100 meters
renders as `"328 ft"`, and an average heart rate of 159.6 renders rounded to
the nearest integer as `"160 bpm"`. -/
theorem c5_numeric_formatting :
    distanceStr (metersToMiles 1609.34) = "1.00" ∧
    paceStr 390 1 = "6:30 min/mi" ∧
    elevationStr 100 = "328 ft" ∧
    heartRateStr 159.6 = "160 bpm" := by
  refine ⟨?_, ?_, ?_, ?_⟩
  · have h1 : jsRound (metersToMiles 1609.34 * 100) = 100 := by
      unfold jsRound metersToMiles
      norm_num [Int.floor_eq_iff]
    unfold distanceStr jsToFixed2
    rw [h1]
    decide
  · have hm : ⌊(390 : ℚ) / 60 / 1⌋ = (6 : ℤ) := by
      norm_num [Int.floor_eq_iff]
    have hs : jsRound (((390 : ℚ) / 60 / 1 - ((6 : ℤ) : ℚ)) * 60) = 30 := by
      unfold jsRound
      norm_num [Int.floor_eq_iff]
    simp only [paceStr]
    rw [hm, hs]
    decide
  · have h1 : jsRound ((100 : ℚ) * 3.28084) = 328 := by
      unfold jsRound
      norm_num [Int.floor_eq_iff]
    unfold elevationStr
    rw [h1]
    decide
  · have h1 : jsRound (159.6 : ℚ) = 160 := by
      unfold jsRound
      norm_num [Int.floor_eq_iff]
    unfold heartRateStr
    rw [h1]
    decide

/-! ## Theorems: three-column layout helper (C9) -/

/-- **C9 counterexample.** The claim that `threeCol` right-pads column 1
fails at the concrete triple `("1", "T", "R")`: the source's `threeCol`
left-pads column 1 (`padStart`), so its output differs from the layout the
spec describes (`threeColClaimed`), and its first 8 characters are the
column-1 text pushed to the right. -/
theorem c9_column_one_counterexample :
    threeCol "1" "T" "R" ≠ threeColClaimed "1" "T" "R" ∧
    (threeCol "1" "T" "R").take 8 = "       1" ∧
    (threeColClaimed "1" "T" "R").take 8 = "1       " := by
  refine ⟨?_, by decide, by decide⟩
  decide

/-- **C9 amended.** `threeCol` left-pads (right-aligns) column 1 and
column 3 to their fixed widths and right-pads column 2, joining the columns
with single spaces; for triples whose column strings do not exceed the fixed
widths the rendered line is exactly 46 characters wide. -/
theorem c9_threeCol_padding (col1 col2 col3 : String)
    (h1 : col1.length ≤ 8) (h2 : col2.length ≤ 24) (h3 : col3.length ≤ 12) :
    threeCol col1 col2 col3 =
      (String.mk (List.replicate (8 - col1.length) ' ') ++ col1) ++ " " ++
        (col2 ++ String.mk (List.replicate (24 - col2.length) ' ')) ++ " " ++
        (String.mk (List.replicate (12 - col3.length) ' ') ++ col3) ∧
    (threeCol col1 col2 col3).length = 46 := by
  constructor
  · rfl
  · simp only [threeCol, jsPadStart, jsPadEnd, String.length_append]
    have e1 : (String.mk (List.replicate (8 - col1.length) ' ')).length =
        8 - col1.length := by
      show (List.replicate (8 - col1.length) ' ').length = 8 - col1.length
      simp
    have e2 : (String.mk (List.replicate (24 - col2.length) ' ')).length =
        24 - col2.length := by
      show (List.replicate (24 - col2.length) ' ').length = 24 - col2.length
      simp
    have e3 : (String.mk (List.replicate (12 - col3.length) ' ')).length =
        12 - col3.length := by
      show (List.replicate (12 - col3.length) ' ').length = 12 - col3.length
      simp
    have e4 : (" " : String).length = 1 := rfl
    rw [e1, e2, e3, e4]
    omega

/-- Witness for C9 (amended) at the stat-line triple
`("1", "RUN", "3.11")`. -/
theorem c9_threeCol_padding_witness :
    (threeCol "1" "RUN" "3.11").length = 46 :=
  (c9_threeCol_padding "1" "RUN" "3.11" (by decide) (by decide)
    (by decide)).2

/-! ## Theorems: POST /print handler (C10) -/

/-- **C10.** For every request whose body parses and whose `activity` field
is truthy, the `/print` handler responds `200` with `success = true`
regardless of the receipt pipeline's outcome (the pipeline's `try`/`catch`
swallows every internal failure), and a `500` response can only arise from a
parse/destructure failure. -/
theorem c10_print_endpoint (parsed : Except String Bool)
    (pipeline : Except String Unit) :
    (parsed = Except.ok true →
      handlePrintRequest parsed pipeline = (200, true)) ∧
    ((handlePrintRequest parsed pipeline).1 = 500 →
      ∃ msg, parsed = Except.error msg) ∧
    createAndPrintReceiptOutcome pipeline = Except.ok () := by
  refine ⟨?_, ?_, ?_⟩
  · rintro rfl
    cases pipeline <;> rfl
  · intro h500
    cases parsed with
    | error e => exact ⟨e, rfl⟩
    | ok b =>
      exfalso
      cases b <;> cases pipeline <;>
        simp [handlePrintRequest, createAndPrintReceiptOutcome] at h500
  · cases pipeline <;> rfl

/-- Witness for C10: a parsed body carrying an activity paired with a
failing pipeline still yields `200`/`success`. -/
theorem c10_print_endpoint_witness :
    handlePrintRequest (Except.ok true) (Except.error "spool failure") =
      (200, true) :=
  (c10_print_endpoint (Except.ok true) (Except.error "spool failure")).1 rfl

end PrintServer

namespace PrintServer

/-! ## Theorems: GPS route projection (C6, C7) -/

/-- A `Math.min` fold is bounded by its seed. -/
lemma foldl_min_le_init (f : RoutePoint → ℚ) :
    ∀ (l : List RoutePoint) (a : ℚ), l.foldl (fun m p => min m (f p)) a ≤ a := by
  intro l
  induction l with
  | nil => intro a; exact le_refl a
  | cons p l ih =>
    intro a
    calc (p :: l).foldl (fun m q => min m (f q)) a
        = l.foldl (fun m q => min m (f q)) (min a (f p)) := rfl
      _ ≤ min a (f p) := ih (min a (f p))
      _ ≤ a := min_le_left a (f p)

/-- A `Math.min` fold is bounded by every folded element. -/
lemma foldl_min_le_mem (f : RoutePoint → ℚ) :
    ∀ (l : List RoutePoint) (a : ℚ) (p : RoutePoint), p ∈ l →
      l.foldl (fun m q => min m (f q)) a ≤ f p := by
  intro l
  induction l with
  | nil => intro a p hp; exact absurd hp (List.not_mem_nil p)
  | cons q l ih =>
    intro a p hp
    rcases List.mem_cons.mp hp with h | h
    · subst h
      calc (p :: l).foldl (fun m r => min m (f r)) a
          = l.foldl (fun m r => min m (f r)) (min a (f p)) := rfl
        _ ≤ min a (f p) := foldl_min_le_init f l (min a (f p))
        _ ≤ f p := min_le_right a (f p)
    · exact ih (min a (f q)) p h

/-- A `Math.max` fold dominates its seed. -/
lemma init_le_foldl_max (f : RoutePoint → ℚ) :
    ∀ (l : List RoutePoint) (a : ℚ), a ≤ l.foldl (fun m p => max m (f p)) a := by
  intro l
  induction l with
  | nil => intro a; exact le_refl a
  | cons p l ih =>
    intro a
    calc a ≤ max a (f p) := le_max_left a (f p)
      _ ≤ l.foldl (fun m q => max m (f q)) (max a (f p)) :=
        ih (max a (f p))
      _ = (p :: l).foldl (fun m q => max m (f q)) a := rfl

/-- A `Math.max` fold dominates every folded element. -/
lemma mem_le_foldl_max (f : RoutePoint → ℚ) :
    ∀ (l : List RoutePoint) (a : ℚ) (p : RoutePoint), p ∈ l →
      f p ≤ l.foldl (fun m q => max m (f q)) a := by
  intro l
  induction l with
  | nil => intro a p hp; exact absurd hp (List.not_mem_nil p)
  | cons q l ih =>
    intro a p hp
    rcases List.mem_cons.mp hp with h | h
    · subst h
      calc f p ≤ max a (f p) := le_max_right a (f p)
        _ ≤ l.foldl (fun m r => max m (f r)) (max a (f p)) :=
          init_le_foldl_max f l (max a (f p))
        _ = (p :: l).foldl (fun m r => max m (f r)) a := rfl
    · exact ih (max a (f q)) p h

/-- The folded `minLat` bounds every route point's latitude from below. -/
lemma minLatOf_le (route : List RoutePoint) (p : RoutePoint) (hp : p ∈ route) :
    minLatOf route ≤ p.lat :=
  foldl_min_le_mem (fun q => q.lat) route (route.headD default).lat p hp

/-- The folded `maxLat` bounds every route point's latitude from above. -/
lemma le_maxLatOf (route : List RoutePoint) (p : RoutePoint) (hp : p ∈ route) :
    p.lat ≤ maxLatOf route :=
  mem_le_foldl_max (fun q => q.lat) route (route.headD default).lat p hp

/-- The folded longitude bounds are ordered. -/
lemma minLngOf_le_maxLngOf (route : List RoutePoint) :
    minLngOf route ≤ maxLngOf route :=
  le_trans
    (foldl_min_le_init (fun q => q.lng) route (route.headD default).lng)
    (init_le_foldl_max (fun q => q.lng) route (route.headD default).lng)

/-- When the route has two points of distinct latitude, the padded
bounding box has a strictly positive latitude extent. -/
lemma padded_lat_extent_pos (route : List RoutePoint) (p q : RoutePoint)
    (hp : p ∈ route) (hq : q ∈ route) (hlat : q.lat < p.lat) :
    0 < paddedMaxLat route - paddedMinLat route := by
  have h1 : minLatOf route ≤ q.lat := minLatOf_le route q hq
  have h2 : p.lat ≤ maxLatOf route := le_maxLatOf route p hp
  have hrange : 0 < maxLatOf route - minLatOf route := by linarith
  have hpad : 0 ≤ routePadding route := by
    unfold routePadding
    have hm : maxLatOf route - minLatOf route ≤
        max (maxLatOf route - minLatOf route)
          (maxLngOf route - minLngOf route) := le_max_left _ _
    nlinarith
  unfold paddedMaxLat paddedMinLat
  linarith

/-- **C6.** For any route and any two of its points with strictly increasing
latitude, the projected y-coordinates are finite and strictly ordered the
other way: geographic north maps toward the canvas top (smaller y), using
the projection against the 10%-padded bounding box. -/
theorem c6_route_y_flip (route : List RoutePoint) (p q : RoutePoint)
    (hp : p ∈ route) (hq : q ∈ route) (hlat : q.lat < p.lat) :
    ∃ yp yq : ℚ, projY route p = some yp ∧ projY route q = some yq ∧
      yp < yq := by
  have hD : 0 < paddedMaxLat route - paddedMinLat route :=
    padded_lat_extent_pos route p q hp hq hlat
  have hDne : paddedMaxLat route - paddedMinLat route ≠ 0 := ne_of_gt hD
  refine ⟨svgHeight -
      (p.lat - paddedMinLat route) / (paddedMaxLat route - paddedMinLat route) *
        svgHeight,
    svgHeight -
      (q.lat - paddedMinLat route) / (paddedMaxLat route - paddedMinLat route) *
        svgHeight, ?_, ?_, ?_⟩
  · unfold projY jsDivQ
    rw [if_neg hDne]
    rfl
  · unfold projY jsDivQ
    rw [if_neg hDne]
    rfl
  · have hfrac : (q.lat - paddedMinLat route) /
        (paddedMaxLat route - paddedMinLat route) <
        (p.lat - paddedMinLat route) /
          (paddedMaxLat route - paddedMinLat route) := by
      rw [div_lt_div_iff₀ hD hD]
      exact mul_lt_mul_of_pos_right (by linarith) hD
    have hscaled := mul_lt_mul_of_pos_right hfrac
      (show (0 : ℚ) < svgHeight by norm_num [svgHeight])
    linarith

end PrintServer

namespace PrintServer

/-- Witness for C6 on the 2-point route `[(lat 1, lng 0), (lat 0, lng 0)]`:
the northern point projects strictly above the southern one. -/
theorem c6_route_y_flip_witness :
    ∃ yp yq : ℚ,
      projY [⟨1, 0⟩, ⟨0, 0⟩] ⟨1, 0⟩ = some yp ∧
      projY [⟨1, 0⟩, ⟨0, 0⟩] ⟨0, 0⟩ = some yq ∧ yp < yq :=
  c6_route_y_flip [⟨1, 0⟩, ⟨0, 0⟩] ⟨1, 0⟩ ⟨0, 0⟩ (List.mem_cons_self _ _)
    (List.mem_cons_of_mem _ (List.mem_cons_self _ _)) zero_lt_one

/-- **C7 counterexample.** A 2-point route whose points coincide (zero-extent
bounding box) does **not** make `buildGPSRouteRasterString` yield the
degenerate no-image result: the `route.length < 2` guard passes, the
projection divides by the zero box extent (non-finite coordinates, `none`),
and the resulting SVG is still handed to the external rasterizer, so whether
an image is emitted is decided outside the repository. -/
theorem c7_zero_extent_counterexample :
    buildGPSRouteResult [⟨1, 2⟩, ⟨1, 2⟩] =
      RouteRenderResult.svgPath [(none, none), (none, none)] ∧
    buildGPSRouteResult [⟨1, 2⟩, ⟨1, 2⟩] ≠ RouteRenderResult.empty := by
  have hpad : routePadding [⟨1, 2⟩, ⟨1, 2⟩] = 0 := by
    simp [routePadding, minLatOf, maxLatOf, minLngOf, maxLngOf, List.foldl]
  have hlat : paddedMaxLat [⟨1, 2⟩, ⟨1, 2⟩] - paddedMinLat [⟨1, 2⟩, ⟨1, 2⟩] =
      0 := by
    simp [paddedMaxLat, paddedMinLat, minLatOf, maxLatOf, List.foldl, hpad]
  have hlng : paddedMaxLng [⟨1, 2⟩, ⟨1, 2⟩] - paddedMinLng [⟨1, 2⟩, ⟨1, 2⟩] =
      0 := by
    simp [paddedMaxLng, paddedMinLng, minLngOf, maxLngOf, List.foldl, hpad]
  have hmain : buildGPSRouteResult [⟨1, 2⟩, ⟨1, 2⟩] =
      RouteRenderResult.svgPath [(none, none), (none, none)] := by
    unfold buildGPSRouteResult
    rw [if_neg (by simp)]
    simp [projX, projY, jsDivQ, hlat, hlng]
  exact ⟨hmain, by rw [hmain]; simp⟩

/-- **C7 amended.** A route with fewer than 2 points makes the route
renderer return the empty (no-image) result before any projection, and the
compositor then pushes the `'[Route visualization]'` placeholder instead of
an image block whatever the rendered string is; for a 2-point route with a
zero-extent bounding box the code does not short-circuit (see the
counterexample): it projects with zero denominators and delegates the SVG to
the external rasterizer inside `try`/`catch`, so it cannot crash, but an
image block may still be produced. -/
theorem c7_short_route_placeholder (route : List RoutePoint)
    (rendered : List ℕ) (h : route.length < 2) :
    buildGPSRouteResult route = RouteRenderResult.empty ∧
    routeSectionUsesImage route rendered = false := by
  constructor
  · unfold buildGPSRouteResult
    rw [if_pos h]
  · unfold routeSectionUsesImage
    have hn : ¬(1 < route.length) := by omega
    simp [hn]

/-- Witness for C7 (amended) on a 1-point route. -/
theorem c7_short_route_placeholder_witness :
    buildGPSRouteResult [⟨0, 0⟩] = RouteRenderResult.empty ∧
    routeSectionUsesImage [⟨0, 0⟩] [1, 2, 3] = false :=
  c7_short_route_placeholder [⟨0, 0⟩] [1, 2, 3] (by decide)

/-! ## Theorems: paced transmission (C8) -/

/-- Evaluating three steps of the `printSection` chain. -/
lemma printSectionRun_three (d : ℕ) (l : ℕ → ℕ) (e : ℕ → Bool) :
    printSectionRun 3 d l e 3 0 0 =
      [(0, 0, e 0), (1, 0 + l 0 + d, e 1),
        (2, 0 + l 0 + d + l 1 + d, e 2)] := rfl

/-- **C8 counterexample.** A stream with exactly 3 section-break markers can
split into 4 nonempty sections, in which case the paced scheduler issues 4
submissions, not 3: `"a<<<SECTION>>>b<<<SECTION>>>c<<<SECTION>>>d"` splits
into 4 pieces (so it contains exactly 3 marker occurrences), all nonempty,
and the paced run submits all 4. -/
theorem c8_three_breaks_counterexample :
    (jsSplit SECTION_BREAK
        "a<<<SECTION>>>b<<<SECTION>>>c<<<SECTION>>>d".data).length = 4 ∧
    sectionsOf "a<<<SECTION>>>b<<<SECTION>>>c<<<SECTION>>>d".data =
      ["a".data, "b".data, "c".data, "d".data] ∧
    (pacedRun (sectionsOf "a<<<SECTION>>>b<<<SECTION>>>c<<<SECTION>>>d".data)
        (SLOW_PRINT_DELAYS "medium") (fun _ => 0) (fun _ => false)).length =
      4 := by
  refine ⟨by decide, by decide, by decide⟩

/-- **C8 amended.** For every stream whose content splits at the
section-break marker into exactly 3 nonempty sections, paced transmission in
mode `"medium"` issues exactly the 3 submissions in index order; each
submission call happens at least 150 ms after the previous one (150 ms
timer delay on top of the previous submission's completion latency); and the
submission schedule (indices and times) is the same whatever errors the
individual submissions report — a failed section is only logged and does not
block later sections. -/
theorem c8_paced_sections (content : List Char) (latency : ℕ → ℕ)
    (errs : ℕ → Bool) (h3 : (sectionsOf content).length = 3) :
    pacedRun (sectionsOf content) (SLOW_PRINT_DELAYS "medium") latency errs =
      [(0, 0, errs 0), (1, 0 + latency 0 + 150, errs 1),
        (2, 0 + latency 0 + 150 + latency 1 + 150, errs 2)] ∧
    (pacedRun (sectionsOf content) (SLOW_PRINT_DELAYS "medium") latency
        errs).map (fun entry => entry.1) = [0, 1, 2] ∧
    (∀ j, j + 1 <
        (pacedRun (sectionsOf content) (SLOW_PRINT_DELAYS "medium") latency
          errs).length →
      ((pacedRun (sectionsOf content) (SLOW_PRINT_DELAYS "medium") latency
          errs).getD j (0, 0, false)).2.1 + 150 ≤
        ((pacedRun (sectionsOf content) (SLOW_PRINT_DELAYS "medium") latency
          errs).getD (j + 1) (0, 0, false)).2.1) ∧
    (pacedRun (sectionsOf content) (SLOW_PRINT_DELAYS "medium") latency
        errs).map (fun entry => (entry.1, entry.2.1)) =
      (pacedRun (sectionsOf content) (SLOW_PRINT_DELAYS "medium") latency
        (fun _ => false)).map (fun entry => (entry.1, entry.2.1)) := by
  have hd : SLOW_PRINT_DELAYS "medium" = 150 := by decide
  have hrun : pacedRun (sectionsOf content) (SLOW_PRINT_DELAYS "medium")
      latency errs =
      [(0, 0, errs 0), (1, 0 + latency 0 + 150, errs 1),
        (2, 0 + latency 0 + 150 + latency 1 + 150, errs 2)] := by
    unfold pacedRun
    rw [h3, hd]
    exact printSectionRun_three 150 latency errs
  have hrun0 : pacedRun (sectionsOf content) (SLOW_PRINT_DELAYS "medium")
      latency (fun _ => false) =
      [(0, 0, false), (1, 0 + latency 0 + 150, false),
        (2, 0 + latency 0 + 150 + latency 1 + 150, false)] := by
    unfold pacedRun
    rw [h3, hd]
    exact printSectionRun_three 150 latency (fun _ => false)
  refine ⟨hrun, ?_, ?_, ?_⟩
  · rw [hrun]; rfl
  · intro j hj
    rw [hrun] at hj ⊢
    have hj2 : j < 2 := by simp at hj; omega
    interval_cases j <;> simp [List.getD]
  · rw [hrun, hrun0]
    rfl

/-- Witness for C8 (amended): a concrete 3-section stream, 7 ms submission
latency, and an error reported on section 0; all three submissions are still
issued in order. -/
theorem c8_paced_sections_witness :
    (pacedRun (sectionsOf "x<<<SECTION>>>y<<<SECTION>>>z".data)
        (SLOW_PRINT_DELAYS "medium") (fun _ => 7)
        (fun i => decide (i = 0))).map (fun entry => entry.1) = [0, 1, 2] :=
  (c8_paced_sections "x<<<SECTION>>>y<<<SECTION>>>z".data (fun _ => 7)
    (fun i => decide (i = 0)) (by decide)).2.1

end PrintServer

namespace PrintServer

/-! ## Theorems: raster encoder (C1, C2) -/

/-- Setting a bit preserves the raster length. -/
lemma setBit_length (raster : List ℕ) (j b : ℕ) :
    (setBit raster j b).length = raster.length := by
  simp [setBit]

/-- One pixel step preserves the raster length. -/
lemma rasterStep_length (black : ℕ → Bool) (B y : ℕ) (raster : List ℕ)
    (x : ℕ) : (rasterStep black B y raster x).length = raster.length := by
  unfold rasterStep
  split
  · simp [setBit]
  · rfl

/-- A whole pixel loop preserves the raster length. -/
lemma foldl_rasterStep_length (black : ℕ → Bool) (B y : ℕ) :
    ∀ (xs : List ℕ) (l : List ℕ),
      (xs.foldl (rasterStep black B y) l).length = l.length := by
  intro xs
  induction xs with
  | nil => intro l; rfl
  | cons x xs ih =>
    intro l
    rw [List.foldl_cons, ih (rasterStep black B y l x), rasterStep_length]

/-- A row pass preserves the raster length. -/
lemma rasterRow_length (black : ℕ → Bool) (width B y : ℕ) (l : List ℕ) :
    (rasterRow black width B y l).length = l.length :=
  foldl_rasterStep_length black B y (List.range width) l

lemma rowMask_nil (black : ℕ → Bool) (B y j : ℕ) :
    rowMask black B y j [] = 0 := rfl

lemma rowMask_cons (black : ℕ → Bool) (B y j x : ℕ) (xs : List ℕ) :
    rowMask black B y j (x :: xs) =
      if black x ∧ y * B + x / 8 = j then
        (1 <<< (7 - x % 8)) ||| rowMask black B y j xs
      else rowMask black B y j xs := rfl

lemma getD_replicate_zero (n j : ℕ) :
    (List.replicate n (0 : ℕ)).getD j 0 = 0 := by
  induction n generalizing j with
  | zero => cases j <;> rfl
  | succ n ih =>
    cases j with
    | zero => rfl
    | succ j => exact ih j

/-- Closed form of a pixel loop: byte `j` accumulates exactly the OR of the
masks of the black pixels that target it. -/
lemma getD_foldl_rasterStep (black : ℕ → Bool) (B y : ℕ) :
    ∀ (xs : List ℕ) (l : List ℕ) (j : ℕ), j < l.length →
      (xs.foldl (rasterStep black B y) l).getD j 0 =
        l.getD j 0 ||| rowMask black B y j xs := by
  intro xs
  induction xs with
  | nil =>
    intro l j hj
    simp [rowMask_nil]
  | cons x xs ih =>
    intro l j hj
    have hlen : (rasterStep black B y l x).length = l.length :=
      rasterStep_length black B y l x
    rw [List.foldl_cons, ih (rasterStep black B y l x) j (by omega),
      rowMask_cons]
    by_cases hb : black x
    · by_cases hidx : y * B + x / 8 = j
      · have h1 : rasterStep black B y l x =
            l.set j (l.getD j 0 ||| (1 <<< (7 - x % 8))) := by
          unfold rasterStep
          rw [if_pos hb]
          unfold setBit
          rw [hidx]
        have h2 : (l.set j (l.getD j 0 ||| (1 <<< (7 - x % 8)))).getD j 0 =
            l.getD j 0 ||| (1 <<< (7 - x % 8)) := by
          simp [List.getD, List.getElem?_set_self, hj]
        rw [h1, h2, if_pos ⟨hb, hidx⟩, Nat.lor_assoc]
      · have h1 : (rasterStep black B y l x).getD j 0 = l.getD j 0 := by
          unfold rasterStep
          rw [if_pos hb]
          unfold setBit
          simp [List.getD, List.getElem?_set_ne hidx]
        rw [h1, if_neg (fun hc => hidx hc.2)]
    · have h1 : rasterStep black B y l x = l := by
        unfold rasterStep
        rw [if_neg hb]
      rw [h1, if_neg (fun hc => hb hc.1)]

lemma colMask_nil (black2 : ℕ → ℕ → Bool) (width B j : ℕ) :
    colMask black2 width B j [] = 0 := rfl

lemma colMask_cons (black2 : ℕ → ℕ → Bool) (width B j y : ℕ) (ys : List ℕ) :
    colMask black2 width B j (y :: ys) =
      rowMask (black2 y) B y j (List.range width) |||
        colMask black2 width B j ys := rfl

/-- Closed form of the row loop over any list of rows. -/
lemma getD_foldl_rows (data : List ℕ) (width B : ℕ) :
    ∀ (ys : List ℕ) (l : List ℕ) (j : ℕ), j < l.length →
      (ys.foldl
          (fun raster y =>
            rasterRow (fun x => pixelIsBlack data width y x) width B y raster)
          l).getD j 0 =
        l.getD j 0 |||
          colMask (fun y x => pixelIsBlack data width y x) width B j ys := by
  intro ys
  induction ys with
  | nil =>
    intro l j hj
    simp [colMask_nil]
  | cons y ys ih =>
    intro l j hj
    have hlen :
        (rasterRow (fun x => pixelIsBlack data width y x) width B y l).length =
          l.length := rasterRow_length _ width B y l
    rw [List.foldl_cons, ih _ j (by omega)]
    have h1 :
        (rasterRow (fun x => pixelIsBlack data width y x) width B y l).getD
            j 0 =
          l.getD j 0 |||
            rowMask (fun x => pixelIsBlack data width y x) B y j
              (List.range width) :=
      getD_foldl_rasterStep (fun x => pixelIsBlack data width y x) B y
        (List.range width) l j hj
    rw [h1, colMask_cons, Nat.lor_assoc]

/-- A row whose pixels never target byte `j` contributes no bits to it. -/
lemma rowMask_eq_zero (black : ℕ → Bool) (B y j : ℕ) :
    ∀ xs : List ℕ, (∀ x ∈ xs, y * B + x / 8 ≠ j) →
      rowMask black B y j xs = 0 := by
  intro xs
  induction xs with
  | nil => intro _; rfl
  | cons x xs ih =>
    intro h
    have h1 : ¬(black x ∧ y * B + x / 8 = j) :=
      fun hc => h x (List.mem_cons_self x xs) hc.2
    rw [rowMask_cons, if_neg h1]
    exact ih (fun x' hx' => h x' (List.mem_cons_of_mem x hx'))

lemma colMask_eq_zero (black2 : ℕ → ℕ → Bool) (width B j : ℕ) :
    ∀ ys : List ℕ,
      (∀ y ∈ ys, rowMask (black2 y) B y j (List.range width) = 0) →
      colMask black2 width B j ys = 0 := by
  intro ys
  induction ys with
  | nil => intro _; rfl
  | cons y ys ih =>
    intro h
    rw [colMask_cons, h y (List.mem_cons_self y ys),
      ih (fun y' hy' => h y' (List.mem_cons_of_mem y hy'))]
    rfl

/-- When every row but `y₀` contributes nothing to byte `j`, the whole loop
contributes exactly row `y₀`'s mask. -/
lemma colMask_eq_single (black2 : ℕ → ℕ → Bool) (width B j y₀ : ℕ) :
    ∀ ys : List ℕ, y₀ ∈ ys → ys.Nodup →
      (∀ y ∈ ys, y ≠ y₀ →
        rowMask (black2 y) B y j (List.range width) = 0) →
      colMask black2 width B j ys =
        rowMask (black2 y₀) B y₀ j (List.range width) := by
  intro ys
  induction ys with
  | nil => intro h; exact absurd h (List.not_mem_nil y₀)
  | cons y ys ih =>
    intro hmem hnd hz
    have hhead : y ∉ ys := (List.nodup_cons.mp hnd).1
    rcases List.mem_cons.mp hmem with h | h
    · subst h
      rw [colMask_cons]
      have hrest : colMask black2 width B j ys = 0 := by
        apply colMask_eq_zero
        intro y' hy'
        exact hz y' (List.mem_cons_of_mem _ hy')
          (fun he => hhead (he ▸ hy'))
      rw [hrest]
      simp
    · have hyne : y ≠ y₀ := fun he => hhead (he ▸ h)
      rw [colMask_cons, hz y (List.mem_cons_self y ys) hyne,
        ih h (List.nodup_cons.mp hnd).2
          (fun y' hy' hne => hz y' (List.mem_cons_of_mem y hy') hne)]
      simp

/-- Distinct `(row, byte-in-row)` pairs give distinct byte indices. -/
lemma byte_index_unique (B y y' r i : ℕ) (hr : r < B) (hi : i < B)
    (h : y * B + r = y' * B + i) : y = y' ∧ r = i := by
  have hy : y = y' := by
    rcases Nat.lt_trichotomy y y' with h1 | h1 | h1
    · exfalso
      have h2 : (y + 1) * B ≤ y' * B := Nat.mul_le_mul_right B h1
      have h3 : (y + 1) * B = y * B + B := by ring
      omega
    · exact h1
    · exfalso
      have h2 : (y' + 1) * B ≤ y * B := Nat.mul_le_mul_right B h1
      have h3 : (y' + 1) * B = y' * B + B := by ring
      omega
  subst hy
  omega

/-- Every byte of the built raster is exactly its row's accumulated mask. -/
lemma buildRaster_getD (width height : ℕ) (data : List ℕ) (y i : ℕ)
    (hy : y < height) (hi : i < bytesPerRowOf width) :
    (buildRaster width height data).getD (y * bytesPerRowOf width + i) 0 =
      rowMask (fun x => pixelIsBlack data width y x) (bytesPerRowOf width) y
        (y * bytesPerRowOf width + i) (List.range width) := by
  have hj : y * bytesPerRowOf width + i < bytesPerRowOf width * height := by
    have h1 : (y + 1) * bytesPerRowOf width ≤ height * bytesPerRowOf width :=
      Nat.mul_le_mul_right (bytesPerRowOf width) hy
    have h2 : (y + 1) * bytesPerRowOf width =
        y * bytesPerRowOf width + bytesPerRowOf width := by ring
    have h3 : height * bytesPerRowOf width = bytesPerRowOf width * height :=
      Nat.mul_comm height (bytesPerRowOf width)
    omega
  unfold buildRaster
  rw [getD_foldl_rows data width (bytesPerRowOf width) (List.range height)
    (List.replicate (bytesPerRowOf width * height) 0)
    (y * bytesPerRowOf width + i) (by simpa using hj)]
  rw [getD_replicate_zero]
  rw [colMask_eq_single (fun y x => pixelIsBlack data width y x) width
    (bytesPerRowOf width) (y * bytesPerRowOf width + i) y (List.range height)
    (List.mem_range.mpr hy) (List.nodup_range height) ?_]
  · simp
  · intro y' _ hne
    apply rowMask_eq_zero
    intro x hx hcontra
    have hxw : x < width := List.mem_range.mp hx
    have hdiv : x / 8 < bytesPerRowOf width := by
      unfold bytesPerRowOf
      omega
    exact hne (byte_index_unique (bytesPerRowOf width) y' y (x / 8) i hdiv hi
      hcontra).1

/-- `testBit` of a shifted one. -/
lemma testBit_one_shiftLeft (b n : ℕ) :
    Nat.testBit (1 <<< b) n = decide (b = n) := by
  rw [Nat.shiftLeft_eq, one_mul]
  by_cases h : b = n
  · subst h
    simp
  · simp [Nat.testBit_two_pow_of_ne h, h]

/-- `testBit` of a row mask: bit `7 - k` is set exactly when some listed
pixel is black, targets byte `j`, and sits in bit column `k`. -/
lemma testBit_rowMask (black : ℕ → Bool) (B y j k : ℕ) (hk : k < 8) :
    ∀ xs : List ℕ,
      Nat.testBit (rowMask black B y j xs) (7 - k) =
        xs.any (fun x =>
          black x && decide (y * B + x / 8 = j) && decide (x % 8 = k)) := by
  intro xs
  induction xs with
  | nil => simp [rowMask_nil]
  | cons x xs ih =>
    rw [rowMask_cons, List.any_cons]
    have hx8 : x % 8 < 8 := Nat.mod_lt x (by norm_num)
    by_cases hc : black x ∧ y * B + x / 8 = j
    · rw [if_pos hc, Nat.testBit_lor, testBit_one_shiftLeft, ih]
      by_cases hxk : x % 8 = k
      · have h7 : 7 - x % 8 = 7 - k := by omega
        simp [h7, hxk, hc.1, hc.2]
      · have h7 : ¬(7 - x % 8 = 7 - k) := by omega
        simp [h7, hxk]
    · rw [if_neg hc, ih]
      have hfalse :
          (black x && decide (y * B + x / 8 = j) && decide (x % 8 = k)) =
            false := by
        cases hb : black x
        · simp
        · have hidx : ¬(y * B + x / 8 = j) := fun hh => hc ⟨hb, hh⟩
          simp [hidx]
      rw [hfalse, Bool.false_or]

/-- **Bit-level characterisation of the raster encoder**: in the packed
raster, bit `7 - k` of byte `i` of row `y` is set iff pixel `8 i + k` exists
in the row (`< width`) and its `isBlack` test passes.  In particular bits
are packed MSB-first in row-major order and all trailing bits of a row's
final byte are 0. -/
lemma testBit_buildRaster (width height : ℕ) (data : List ℕ) (y i k : ℕ)
    (hy : y < height) (hi : i < bytesPerRowOf width) (hk : k < 8) :
    Nat.testBit
        ((buildRaster width height data).getD
          (y * bytesPerRowOf width + i) 0) (7 - k) =
      (decide (8 * i + k < width) &&
        pixelIsBlack data width y (8 * i + k)) := by
  rw [buildRaster_getD width height data y i hy hi]
  rw [testBit_rowMask (fun x => pixelIsBlack data width y x)
    (bytesPerRowOf width) y (y * bytesPerRowOf width + i) k hk
    (List.range width)]
  by_cases hw : 8 * i + k < width
  · by_cases hb : pixelIsBlack data width y (8 * i + k)
    · have hany : (List.range width).any (fun x =>
          pixelIsBlack data width y x &&
            decide (y * bytesPerRowOf width + x / 8 =
              y * bytesPerRowOf width + i) && decide (x % 8 = k)) = true := by
        apply List.any_eq_true.mpr
        refine ⟨8 * i + k, List.mem_range.mpr hw, ?_⟩
        have h1 : (8 * i + k) / 8 = i := by omega
        have h2 : (8 * i + k) % 8 = k := by omega
        simp [hb, h1, h2]
      rw [hany]
      simp [hw, hb]
    · have hany : (List.range width).any (fun x =>
          pixelIsBlack data width y x &&
            decide (y * bytesPerRowOf width + x / 8 =
              y * bytesPerRowOf width + i) && decide (x % 8 = k)) = false := by
        apply List.any_eq_false.mpr
        intro x hx
        simp only [Bool.and_eq_true, decide_eq_true_eq, not_and]
        intro hpx hmod
        have hdiv : x / 8 = i := Nat.add_left_cancel hpx.2
        have hxeq : x = 8 * i + k := by omega
        rw [hxeq] at hpx
        exact absurd hpx.1 (by simpa using hb)
      rw [hany]
      simp [hb]
  · have hany : (List.range width).any (fun x =>
        pixelIsBlack data width y x &&
          decide (y * bytesPerRowOf width + x / 8 =
            y * bytesPerRowOf width + i) && decide (x % 8 = k)) = false := by
      apply List.any_eq_false.mpr
      intro x hx
      simp only [Bool.and_eq_true, decide_eq_true_eq, not_and]
      intro hpx hmod
      have hxw : x < width := List.mem_range.mp hx
      have hdiv : x / 8 = i := Nat.add_left_cancel hpx.2
      omega
    rw [hany]
    simp [hw]

/-- The built raster always has `bytesPerRow * height` bytes. -/
lemma buildRaster_length (width height : ℕ) (data : List ℕ) :
    (buildRaster width height data).length =
      bytesPerRowOf width * height := by
  unfold buildRaster
  have hfold : ∀ (ys : List ℕ) (l : List ℕ),
      (ys.foldl
          (fun raster y =>
            rasterRow (fun x => pixelIsBlack data width y x) width
              (bytesPerRowOf width) y raster)
          l).length = l.length := by
    intro ys
    induction ys with
    | nil => intro l; rfl
    | cons y ys ih =>
      intro l
      rw [List.foldl_cons, ih, rasterRow_length]
  rw [hfold, List.length_replicate]

/-- If no in-range pixel is black, the packing loop leaves the raster
all-zero. -/
lemma buildRaster_no_ink (width height : ℕ) (data : List ℕ)
    (h : ∀ y < height, ∀ x < width, pixelIsBlack data width y x = false) :
    buildRaster width height data =
      List.replicate (bytesPerRowOf width * height) 0 := by
  unfold buildRaster
  have hrow : ∀ y < height, ∀ l : List ℕ,
      rasterRow (fun x => pixelIsBlack data width y x) width
        (bytesPerRowOf width) y l = l := by
    intro y hy l
    unfold rasterRow
    have hxs : ∀ (xs : List ℕ), (∀ x ∈ xs, x < width) → ∀ l' : List ℕ,
        xs.foldl
          (rasterStep (fun x => pixelIsBlack data width y x)
            (bytesPerRowOf width) y) l' = l' := by
      intro xs
      induction xs with
      | nil => intro _ l'; rfl
      | cons x xs ih =>
        intro hmem l'
        rw [List.foldl_cons]
        have hstep : rasterStep (fun x => pixelIsBlack data width y x)
            (bytesPerRowOf width) y l' x = l' := by
          unfold rasterStep
          simp [h y hy x (hmem x (List.mem_cons_self x xs))]
        rw [hstep]
        exact ih (fun x' hx' => hmem x' (List.mem_cons_of_mem x hx')) l'
    exact hxs (List.range width) (fun x hx => List.mem_range.mp hx) l
  have houter : ∀ (ys : List ℕ), (∀ y ∈ ys, y < height) → ∀ l : List ℕ,
      ys.foldl
        (fun raster y =>
          rasterRow (fun x => pixelIsBlack data width y x) width
            (bytesPerRowOf width) y raster) l = l := by
    intro ys
    induction ys with
    | nil => intro _ l; rfl
    | cons y ys ih =>
      intro hmem l
      rw [List.foldl_cons, hrow y (hmem y (List.mem_cons_self y ys))]
      exact ih (fun y' hy' => hmem y' (List.mem_cons_of_mem y hy')) l
  exact houter (List.range height) (fun y hy => List.mem_range.mp hy) _

end PrintServer

namespace PrintServer

/-- **C1.** For every decoded RGBA buffer and dimensions `width, height ≥ 1`,
the raster encoder produces `bytesPerRow * height` bytes with
`bytesPerRow = ceil(width / 8)` (the least number of bytes covering a row:
`width ≤ 8 * bytesPerRow < width + 8`), and bit `7 - k` of byte `i` of row
`y` is set exactly when column `8 i + k` holds a black pixel of the image —
MSB-first packing in row-major order, with every unused trailing bit of a
row's final byte equal to 0. -/
theorem c1_raster_shape (width height : ℕ) (data : List ℕ)
    (_hw : 1 ≤ width) (_hh : 1 ≤ height) :
    (buildRaster width height data).length = bytesPerRowOf width * height ∧
    (width ≤ 8 * bytesPerRowOf width ∧
      8 * bytesPerRowOf width < width + 8) ∧
    (∀ y < height, ∀ i < bytesPerRowOf width, ∀ k < 8,
      Nat.testBit
          ((buildRaster width height data).getD
            (y * bytesPerRowOf width + i) 0) (7 - k) =
        (decide (8 * i + k < width) &&
          pixelIsBlack data width y (8 * i + k))) := by
  refine ⟨buildRaster_length width height data, ⟨?_, ?_⟩, ?_⟩
  · unfold bytesPerRowOf
    omega
  · unfold bytesPerRowOf
    omega
  · intro y hy i hi k hk
    exact testBit_buildRaster width height data y i k hy hi hk

/-- Witness for C1 at a 3×2 image (payload `ceil(3/8) * 2 = 2` bytes). -/
theorem c1_raster_shape_witness :
    (buildRaster 3 2 (List.replicate 24 0)).length = bytesPerRowOf 3 * 2 :=
  (c1_raster_shape 3 2 (List.replicate 24 0) (by decide) (by decide)).1

/-- **C2.** A pixel's bit is 1 iff `(1 - luminance) > 1/2` and its alpha
channel exceeds `1/10` (channels scaled to `[0,1]`, luminance
`0.2126 R + 0.7152 G + 0.0722 B`); consequently an all-white opaque image
yields an all-zero raster, an all-black opaque image sets every used bit,
and a fully transparent image yields an all-zero raster regardless of its
RGB values. -/
theorem c2_ink_predicate (width height : ℕ) (data : List ℕ) :
    (∀ y < height, ∀ i < bytesPerRowOf width, ∀ k < 8, 8 * i + k < width →
      (Nat.testBit
          ((buildRaster width height data).getD
            (y * bytesPerRowOf width + i) 0) (7 - k) = true ↔
        (1 - luminance
            (((pixelChannels data width y (8 * i + k)).1 : ℚ) / 255)
            (((pixelChannels data width y (8 * i + k)).2.1 : ℚ) / 255)
            (((pixelChannels data width y (8 * i + k)).2.2.1 : ℚ) / 255) >
            1 / 2 ∧
          ((pixelChannels data width y (8 * i + k)).2.2.2 : ℚ) / 255 >
            1 / 10))) ∧
    ((∀ y < height, ∀ x < width,
        pixelChannels data width y x = (255, 255, 255, 255)) →
      buildRaster width height data =
        List.replicate (bytesPerRowOf width * height) 0) ∧
    ((∀ y < height, ∀ x < width,
        pixelChannels data width y x = (0, 0, 0, 255)) →
      ∀ y < height, ∀ i < bytesPerRowOf width, ∀ k < 8,
        Nat.testBit
            ((buildRaster width height data).getD
              (y * bytesPerRowOf width + i) 0) (7 - k) =
          decide (8 * i + k < width)) ∧
    ((∀ y < height, ∀ x < width,
        (pixelChannels data width y x).2.2.2 = 0) →
      buildRaster width height data =
        List.replicate (bytesPerRowOf width * height) 0) := by
  refine ⟨?_, ?_, ?_, ?_⟩
  · intro y hy i hi k hk hx
    rw [testBit_buildRaster width height data y i k hy hi hk]
    have hxd : decide (8 * i + k < width) = true := decide_eq_true hx
    rw [hxd, Bool.true_and]
    simp only [pixelIsBlack, isBlack, inkThreshold, luminance,
      decide_eq_true_eq, gt_iff_lt]
    norm_num
  · intro hwhite
    apply buildRaster_no_ink
    intro y hy x hx
    simp only [pixelIsBlack]
    rw [hwhite y hy x hx]
    simp only [isBlack]
    apply decide_eq_false
    rintro ⟨hlum, -⟩
    norm_num [luminance, inkThreshold] at hlum
  · intro hblack y hy i hi k hk
    rw [testBit_buildRaster width height data y i k hy hi hk]
    by_cases hx : 8 * i + k < width
    · have hpix : pixelIsBlack data width y (8 * i + k) = true := by
        simp only [pixelIsBlack]
        rw [hblack y hy (8 * i + k) hx]
        simp only [isBlack]
        apply decide_eq_true
        constructor
        · norm_num [luminance, inkThreshold]
        · norm_num
      rw [hpix, Bool.and_true]
    · simp [hx]
  · intro halpha
    apply buildRaster_no_ink
    intro y hy x hx
    simp only [pixelIsBlack]
    rw [halpha y hy x hx]
    simp only [isBlack]
    apply decide_eq_false
    rintro ⟨-, ha⟩
    norm_num at ha

/-- Witness for C2: a 2×1 all-white opaque image and a 2×1 fully transparent
image (with nonzero RGB) both raster to the single zero byte. -/
theorem c2_ink_predicate_witness :
    buildRaster 2 1 (List.replicate 8 255) =
      List.replicate (bytesPerRowOf 2 * 1) 0 ∧
    buildRaster 2 1 [7, 9, 11, 0, 200, 100, 50, 0] =
      List.replicate (bytesPerRowOf 2 * 1) 0 :=
  ⟨(c2_ink_predicate 2 1 (List.replicate 8 255)).2.1 (by decide),
    (c2_ink_predicate 2 1 [7, 9, 11, 0, 200, 100, 50, 0]).2.2.2 (by decide)⟩

end PrintServer
